import Mathlib

/-!
Verification of the psychic-ninja TCP layer and its growable-array module.

The development shallowly embeds the C sources:
  * the rxi-derived vector helpers of src/src/main.c (vec_expand_,
    vec_compact_, vec_swap_, reallocarray);
  * the socket module variant of src/unnamed/part_002 (CreateSocket,
    ConnectSocket, DestroySocket, DestroySockets, ReadSocket, WriteSocket)
    together with ResolveAddress of src/src/socket/socket.c;
  * a registry state machine for the global `sockets` vector.

Machine integers are Nat with explicit reduction modulo 2 ^ 64 where the C
code relies on size_t wraparound.  Fallible allocation and the network
syscalls are passed in as explicit outcomes (an allocOk flag, a connect
oracle, the getaddrinfo status), so every definition is executable.
-/

namespace PsychicNinja

/-- A growable array header as the vector module stores it: the in-use
elements data[0..length) (so length is elems.length), the capacity field,
and whether the data pointer is currently NULL. -/
structure CVec (α : Type) where
  elems : List α
  capacity : Nat
  nullData : Bool
deriving Repr, DecidableEq

/-- VEC_MIN_CAPACITY of src/src/main.c. -/
def VEC_MIN_CAPACITY : Nat := 4

/-- vec_expand_ of src/src/main.c lines 94-111.  When length + 1 > capacity
the capacity field is first rewritten (VEC_MIN_CAPACITY when it was 0,
otherwise doubled via the left shift) and only then reallocarray runs; on
reallocation failure the old data pointer is kept, the already-updated
capacity stays, and errno is set to ENOMEM.  allocOk is the reallocation
outcome; the returned Bool is whether ENOMEM was signalled. -/
def vec_expand_ {α : Type} (v : CVec α) (allocOk : Bool) : CVec α × Bool :=
  if v.elems.length + 1 > v.capacity then
    let newCap := if v.capacity = 0 then VEC_MIN_CAPACITY else v.capacity * 2
    if allocOk then
      (⟨v.elems, newCap, false⟩, false)
    else
      (⟨v.elems, newCap, v.nullData⟩, true)
  else
    (v, false)

/-- Modelled from the spec: the vec_push macro lives in the repository's
missing vector/vec.h header.  Per the spec it expands, and on a signalled
memory-exhaustion condition the push does not proceed; otherwise the element
is written at index length and length is incremented. -/
def vec_push {α : Type} (v : CVec α) (x : α) (allocOk : Bool) : CVec α × Bool :=
  let r := vec_expand_ v allocOk
  if r.2 then r
  else (⟨r.1.elems ++ [x], r.1.capacity, r.1.nullData⟩, false)

/-- vec_compact_ of src/src/main.c lines 130-147: for length 0 it frees the
buffer, nulls the data pointer and zeroes capacity; otherwise it writes
length into capacity and reallocates, keeping the old pointer (and the
already-written capacity) when reallocation fails. -/
def vec_compact_ {α : Type} (v : CVec α) (allocOk : Bool) : CVec α × Bool :=
  if v.elems.length = 0 then
    (⟨[], 0, true⟩, false)
  else
    if allocOk then
      (⟨v.elems, v.elems.length, false⟩, false)
    else
      (⟨v.elems, v.elems.length, v.nullData⟩, true)

/-- The effect of the three memcpy calls of vec_swap_ on the in-use
elements: the values at idx1 and idx2 change places. -/
def listSwap {α : Type} (l : List α) (i j : Nat) : List α :=
  match l[i]?, l[j]? with
  | some a, some b => (l.set i b).set j a
  | _, _ => l

/-- vec_swap_ of src/src/main.c lines 174-187: it unconditionally calls
vec_expand_ (the scratch slot sits at index length, one past the in-use
elements), returns early when that signalled ENOMEM, and otherwise swaps
the elements at idx1 and idx2 through the scratch slot. -/
def vec_swap_ {α : Type} (v : CVec α) (i j : Nat) (allocOk : Bool) : CVec α × Bool :=
  let r := vec_expand_ v allocOk
  if r.2 then r
  else (⟨listSwap r.1.elems i j, r.1.capacity, r.1.nullData⟩, false)

/-- MUL_NO_OVERFLOW of src/src/main.c: 1UL shifted by sizeof(size_t) * 4,
i.e. 2 ^ (bits / 2) for a size_t of the given bit width. -/
def MUL_NO_OVERFLOW (bits : Nat) : Nat := 2 ^ (bits / 2)

/-- SIZE_MAX for a size_t of the given bit width. -/
def sizeMax (bits : Nat) : Nat := 2 ^ bits - 1

/-- reallocarray of src/src/main.c lines 241-251: when the overflow guard
fires it sets errno to ENOMEM and returns NULL (modelled as none); otherwise
it calls realloc with size * nmemb computed in size_t arithmetic, returned
here as the requested byte count. -/
def reallocarray (bits nmemb size : Nat) : Option Nat :=
  if (MUL_NO_OVERFLOW bits ≤ nmemb ∨ MUL_NO_OVERFLOW bits ≤ size)
      ∧ 0 < nmemb ∧ sizeMax bits / nmemb < size then
    none
  else
    some (size * nmemb % 2 ^ bits)

/-- One resolver-produced candidate endpoint as a struct addrinfo node
carries it: address family, socket type, protocol and the binary address
(ai_addr, abstracted to a number).  The ai_next chain is a List. -/
structure Candidate where
  family : Nat
  socktype : Nat
  protocol : Nat
  addr : Nat
deriving Repr, DecidableEq

/-- AF_INET as on Linux. -/
def AF_INET : Nat := 2

/-- SOCK_STREAM as on Linux. -/
def SOCK_STREAM : Nat := 1

/-- The two hint fields the socket module writes before getaddrinfo. -/
structure Hints where
  family : Nat
  socktype : Nat
deriving Repr, DecidableEq

/-- The hints CreateSocket / ResolveAddress fill in: AF_INET, SOCK_STREAM. -/
def resolveHints : Hints := ⟨AF_INET, SOCK_STREAM⟩

/-- ResolveAddress of src/src/socket/socket.c lines 95-114: one getaddrinfo
call with the AF_INET / SOCK_STREAM hints; a nonzero status makes it return
the failure value 0 (the status itself is not part of the result), a zero
status delivers the resolver's candidate chain untouched.  The OS resolver
is the oracle gai, applied to the hints and the host and port strings. -/
def ResolveAddress (gai : Hints → String → String → Nat × List Candidate)
    (host port : String) : Bool × List Candidate :=
  let r := gai resolveHints host port
  if r.1 ≠ 0 then (false, [])
  else (true, r.2)

/-- A socket_t as CreateSocket of src/unnamed/part_002 fills it: the
descriptor, the family/socktype/protocol the socket() syscall was given
when that descriptor was created, and the stored candidate chain
(sock->adr).  host/port/ip stay unset on this path and are omitted. -/
structure SocketT where
  fd : Nat
  fdFamily : Nat
  fdSocktype : Nat
  fdProtocol : Nat
  adr : List Candidate
deriving Repr, DecidableEq

/-- CreateSocket of src/unnamed/part_002 lines 103-140.  rv and servinfo are
the getaddrinfo outcome, socketOk whether the socket() syscall succeeds and
newFd the descriptor it would return; openFDs is the process descriptor
table.  A nonzero rv returns NULL before any descriptor exists; on success
the socket() call uses the FIRST candidate's family/socktype/protocol
(sock->adr points at the head of the chain) and the descriptor is opened.
A success from getaddrinfo yields a non-empty chain, so the [] branch is
unreachable and opens nothing.  The push onto the registry is modelled by
the registry state machine below. -/
def CreateSocket (openFDs : List Nat) (rv : Nat) (servinfo : List Candidate)
    (socketOk : Bool) (newFd : Nat) : List Nat × Option SocketT :=
  if rv ≠ 0 then (openFDs, none)
  else
    match servinfo with
    | [] => (openFDs, none)
    | c :: _ =>
      if socketOk then
        (openFDs ++ [newFd], some ⟨newFd, c.family, c.socktype, c.protocol, servinfo⟩)
      else (openFDs, none)

/-- The candidate loop of ConnectSocket (src/unnamed/part_002 lines
166-181): try connect on each chain node in order, stop at the first
success; the function returns 1 when some candidate connected and 0 after
the chain is exhausted.  conn is the blocking connect syscall's outcome per
candidate. -/
def connectLoop (conn : Candidate → Bool) : List Candidate → Bool
  | [] => false
  | c :: rest => if conn c then true else connectLoop conn rest

/-- The candidates ConnectSocket actually attempts, in loop order: every
candidate up to and including the first one whose connect succeeds. -/
def connectAttempts (conn : Candidate → Bool) : List Candidate → List Candidate
  | [] => []
  | c :: rest => if conn c then [c] else c :: connectAttempts conn rest

/-- ConnectSocket of src/unnamed/part_002 lines 156-191: iterate the stored
chain sock->adr with the loop above.  Every connect call in the loop passes
the same sock->fd; the loop opens no socket and closes none. -/
def ConnectSocket (conn : Candidate → Bool) (sock : SocketT) : Bool :=
  connectLoop conn sock.adr

/-- The kernel-socket parameters each connect attempt runs on: every
attempt passes sock->fd, so each one uses the descriptor's creation-time
family/socktype/protocol, never the current candidate's own triple. -/
def attemptSocketParams (conn : Candidate → Bool) (sock : SocketT) :
    List (Nat × Nat × Nat) :=
  (connectAttempts conn sock.adr).map (fun _ => (sock.fdFamily, sock.fdSocktype, sock.fdProtocol))

/-- ConnectSocket's effect on the process descriptor table, paired with its
return value: the loop neither opens nor closes descriptors. -/
def ConnectSocketFDs (openFDs : List Nat) (conn : Candidate → Bool) (sock : SocketT) :
    List Nat × Bool :=
  (openFDs, ConnectSocket conn sock)

/-- The size_t value of a signed syscall return: reduction modulo 2 ^ 64,
as the assignment size_t bytes = read(...) performs it on a 64-bit Linux. -/
def sizeTcast (i : Int) : Nat := (i % (2 : Int) ^ 64).toNat

/-- ReadSocket of src/unnamed/part_002 lines 238-251: the ssize_t result of
read is stored into a size_t and returned as the byte count, so the -1
error return comes back as 2 ^ 64 - 1 in the same unsigned byte-count
type (the function only logs the error). -/
def ReadSocket (readRet : Int) : Nat := sizeTcast readRet

/-- WriteSocket of src/unnamed/part_002 lines 266-278: same shape as
ReadSocket, with send in place of read. -/
def WriteSocket (sendRet : Int) : Nat := sizeTcast sendRet

/-- The registry-affecting operations of the socket module: a CreateSocket
call — with the outcomes of its resolver step, its socket() step and of
the reallocation inside its registry vec_push — and a DestroySocket call
on a handle. -/
inductive RegOp where
  | create (resolveOk : Bool) (socketOk : Bool) (pushOk : Bool)
  | destroy (h : Nat)
deriving Repr, DecidableEq

/-- The global sockets vector of src/unnamed/part_002 (a vector of
socket_t pointers) plus a freshness counter standing for the allocator:
each handle CreateSocket returns is a pointer no live handle equals. -/
structure RegState where
  sockets : List Nat
  nextId : Nat
deriving Repr, DecidableEq

/-- The registry after InitializeSockets: an empty vector. -/
def regInit : RegState := ⟨[], 0⟩

/-- One operation on the registry.  CreateSocket (src/unnamed/part_002
lines 103-140) reaches its vec_push only when getaddrinfo succeeded and
socket() returned a descriptor; either failure returns NULL with the
vector untouched.  The push itself can fail: per the spec's contract for
the (missing) vec.h push macro, an allocation failure inside the push
appends nothing — and CreateSocket never checks that outcome, so it still
returns the live handle (lines 137-139), which then exists without being
registered while consuming a fresh allocator address.  DestroySocket
(lines 204-223) ends in vec_remove, which deletes the first occurrence of
the handle (vec.h is the rxi vector header referenced by src/src/main.c);
erasing an unregistered handle leaves the vector as it was. -/
def regStep (st : RegState) : RegOp → RegState
  | RegOp.create r s p =>
    if r && s then
      if p then ⟨st.sockets ++ [st.nextId], st.nextId + 1⟩
      else ⟨st.sockets, st.nextId + 1⟩
    else st
  | RegOp.destroy h => ⟨st.sockets.erase h, st.nextId⟩

/-- Run a sequence of operations from the freshly initialized registry. -/
def regRun (ops : List RegOp) : RegState := regInit |> fun st => ops.foldl regStep st

/-- Whether an operation is a CreateSocket call that succeeded, that is,
returned a live handle to its caller — the push outcome plays no part,
since CreateSocket returns the handle without checking it. -/
def isSuccCreate : RegOp → Bool
  | RegOp.create r s _ => r && s
  | _ => false

/-- How many successful CreateSocket calls a trace holds; the handle
created by the k-th successful call is modelled by the number k. -/
def succCreates (ops : List RegOp) : Nat := (ops.filter isSuccCreate).length

/-- The claim's notion for the registry invariant: handle h has been
created by some successful CreateSocket of the trace (whatever its push
outcome) and no later DestroySocket destroyed it. -/
def createdNotDestroyed (ops : List RegOp) (h : Nat) : Prop :=
  ∃ pre p post, ops = pre ++ RegOp.create true true p :: post
    ∧ succCreates pre = h ∧ RegOp.destroy h ∉ post

/-- The notion the registry actually realizes: handle h was created by a
successful CreateSocket whose registry push also appended (no allocation
failure inside vec_push), and no later DestroySocket destroyed it. -/
def registeredNotDestroyed (ops : List RegOp) (h : Nat) : Prop :=
  ∃ pre post, ops = pre ++ RegOp.create true true true :: post
    ∧ succCreates pre = h ∧ RegOp.destroy h ∉ post

/-- One iteration step of the vec_foreach loop of DestroySockets
(src/unnamed/part_002 lines 72-86).  vec_foreach re-reads length on every
test while DestroySocket(socket) erases the current handle from the very
vector being walked, so the element that slides into the current slot is
skipped when i advances.  fuel bounds the iterations; i only grows, so the
initial length is always enough. -/
def destroyAllGo : Nat → Nat → List Nat → List Nat → List Nat × List Nat
  | 0, _, socks, destroyed => (socks, destroyed)
  | fuel + 1, i, socks, destroyed =>
    if h : i < socks.length then
      let s := socks.get ⟨i, h⟩
      destroyAllGo fuel (i + 1) (socks.erase s) (destroyed ++ [s])
    else (socks, destroyed)

/-- DestroySockets of src/unnamed/part_002 lines 72-86: the vec_foreach
loop above followed by vec_deinit, which frees the vector storage and
leaves the registry empty.  The first component is the registry after the
call, the second the handles DestroySocket was called on (descriptor
closed, memory released), in call order. -/
def DestroySockets (socks : List Nat) : List Nat × List Nat :=
  ([], (destroyAllGo socks.length 0 socks []).2)

/-! ## Growable-array theorems -/

/-- Helper: setting index i and reading index i of a list, for i in range. -/
theorem listSwap_getElem_left {α : Type} (l : List α) (i j : Nat)
    (hi : i < l.length) (hj : j < l.length) : (listSwap l i j)[i]? = l[j]? := by
  unfold listSwap
  rw [List.getElem?_eq_getElem hi, List.getElem?_eq_getElem hj]
  by_cases hij : i = j
  · subst hij
    simp [List.getElem?_set, hi]
  · rw [List.getElem?_set_ne (by exact fun h => hij h.symm)]
    exact List.getElem?_set_eq_of_lt _ (by simpa using hi)

/-- Helper: after the swap the value at j is the old value at i. -/
theorem listSwap_getElem_right {α : Type} (l : List α) (i j : Nat)
    (hi : i < l.length) (hj : j < l.length) : (listSwap l i j)[j]? = l[i]? := by
  unfold listSwap
  rw [List.getElem?_eq_getElem hi, List.getElem?_eq_getElem hj]
  exact List.getElem?_set_eq_of_lt _ (by simpa using hj)

/-- Helper: the swap leaves every other index untouched. -/
theorem listSwap_getElem_other {α : Type} (l : List α) (i j k : Nat)
    (hki : k ≠ i) (hkj : k ≠ j) : (listSwap l i j)[k]? = l[k]? := by
  unfold listSwap
  cases hli : l[i]? with
  | none => rfl
  | some a =>
    cases hlj : l[j]? with
    | none => rfl
    | some b =>
      rw [List.getElem?_set_ne (by exact fun h => hkj h.symm),
        List.getElem?_set_ne (by exact fun h => hki h.symm)]

/-- Helper: the swap preserves the length. -/
theorem listSwap_length {α : Type} (l : List α) (i j : Nat) :
    (listSwap l i j).length = l.length := by
  unfold listSwap
  cases hli : l[i]? <;> cases hlj : l[j]? <;> simp

/-- C3 counterexample: the claim's growth formula and its failure frame both
fail on vec_expand_.  At capacity 1 (reachable via vec_reserve_(1)) a push
grows the capacity to 2, not max(MIN_CAPACITY, 1 * 2) = 4; and when the
reallocation of a full 4-element array fails, the capacity field is left at
the attempted value 8, not at its pre-call value 4. -/
theorem vec_push_claim_cex :
    ((vec_push (⟨[5], 1, false⟩ : CVec Nat) 6 true).1.capacity ≠
        max VEC_MIN_CAPACITY (1 * 2))
    ∧ ((vec_push (⟨[1, 2, 3, 4], 4, false⟩ : CVec Nat) 9 false).1.capacity ≠ 4) := by
  decide

/-- C3 (amended): Push appends the element, growing only when
length + 1 > capacity, the new capacity being MIN_CAPACITY when the old
capacity was 0 and twice the old capacity otherwise; when the reallocation
fails, the data pointer, the length and the stored elements are preserved,
ENOMEM is signalled and the element is not appended, but the capacity field
keeps the attempted new value. -/
theorem vec_push_ok {α : Type} (v : CVec α) (x : α) (allocOk : Bool)
    (_hinv : v.elems.length ≤ v.capacity) :
    (v.elems.length + 1 ≤ v.capacity →
      vec_push v x allocOk = (⟨v.elems ++ [x], v.capacity, v.nullData⟩, false))
    ∧ (v.elems.length + 1 > v.capacity → allocOk = true →
      vec_push v x allocOk =
        (⟨v.elems ++ [x], if v.capacity = 0 then VEC_MIN_CAPACITY else v.capacity * 2,
          false⟩, false))
    ∧ (v.elems.length + 1 > v.capacity → allocOk = false →
      vec_push v x allocOk =
        (⟨v.elems, if v.capacity = 0 then VEC_MIN_CAPACITY else v.capacity * 2,
          v.nullData⟩, true)) := by
  refine ⟨fun hle => ?_, fun hgt hok => ?_, fun hgt hko => ?_⟩
  · have hnot : ¬ v.elems.length + 1 > v.capacity := by omega
    simp [vec_push, vec_expand_, hnot]
  · subst hok
    simp [vec_push, vec_expand_, hgt]
  · subst hko
    simp [vec_push, vec_expand_, hgt]

/-- C3 witness: a push into a 1-element array of capacity 4 appends without
growing. -/
theorem vec_push_ok_witness :
    vec_push (⟨[1], 4, false⟩ : CVec Nat) 2 true = (⟨[1, 2], 4, false⟩, false) :=
  (vec_push_ok (⟨[1], 4, false⟩ : CVec Nat) 2 true (by decide)).1 (by decide)

/-- C8: Compact always sets the capacity field to exactly the length while
preserving the stored elements, and for length 0 it frees the buffer, nulls
the data pointer and resets the capacity to 0. -/
theorem vec_compact_spec {α : Type} (v : CVec α) (allocOk : Bool) :
    (vec_compact_ v allocOk).1.capacity = v.elems.length
    ∧ (vec_compact_ v allocOk).1.elems = v.elems
    ∧ (v.elems.length = 0 → (vec_compact_ v allocOk).1.nullData = true) := by
  by_cases h0 : v.elems.length = 0
  · have he : v.elems = [] := List.length_eq_zero.mp h0
    simp [vec_compact_, h0, he]
  · cases allocOk <;> simp [vec_compact_, h0]

/-- C9 counterexample: swapping the first two elements of a full 4-element
array changes the capacity (the source unconditionally expands, and a full
array grows), refuting the claim that capacity is left unchanged. -/
theorem vec_swap_claim_cex :
    (vec_swap_ (⟨[10, 20, 30, 40], 4, false⟩ : CVec Nat) 0 1 true).1.capacity ≠ 4 := by
  decide

/-- C9 (amended): for valid indices, Swap exchanges the two elements by
value and leaves every other element and the length unchanged; the capacity
is unchanged when length < capacity, but because the source calls
vec_expand_ on every swap, a full array (length = capacity) is grown to
twice the capacity before swapping (given the reallocation succeeds). -/
theorem vec_swap_ok {α : Type} (v : CVec α) (i j : Nat) (allocOk : Bool)
    (hi : i < v.elems.length) (hj : j < v.elems.length) :
    (v.elems.length < v.capacity →
      vec_swap_ v i j allocOk = (⟨listSwap v.elems i j, v.capacity, v.nullData⟩, false))
    ∧ (v.elems.length = v.capacity → allocOk = true →
      vec_swap_ v i j allocOk = (⟨listSwap v.elems i j, v.capacity * 2, false⟩, false))
    ∧ (listSwap v.elems i j).length = v.elems.length
    ∧ (listSwap v.elems i j)[i]? = v.elems[j]?
    ∧ (listSwap v.elems i j)[j]? = v.elems[i]?
    ∧ (∀ k, k ≠ i → k ≠ j → (listSwap v.elems i j)[k]? = v.elems[k]?) := by
  refine ⟨fun hlt => ?_, fun heq hok => ?_, listSwap_length _ _ _,
    listSwap_getElem_left _ _ _ hi hj, listSwap_getElem_right _ _ _ hi hj,
    fun k hki hkj => listSwap_getElem_other _ _ _ _ hki hkj⟩
  · have hnot : ¬ v.elems.length + 1 > v.capacity := by omega
    simp [vec_swap_, vec_expand_, hnot]
  · subst hok
    have hgt : v.elems.length + 1 > v.capacity := by omega
    have hc0 : ¬ v.capacity = 0 := by omega
    simp [vec_swap_, vec_expand_, hgt, hc0]

/-- C9 witness: swapping indices 0 and 2 of a 3-element array of capacity 4
leaves the capacity at 4. -/
theorem vec_swap_ok_witness :
    vec_swap_ (⟨[7, 8, 9], 4, false⟩ : CVec Nat) 0 2 true
      = (⟨listSwap [7, 8, 9] 0 2, 4, false⟩, false) :=
  (vec_swap_ok (⟨[7, 8, 9], 4, false⟩ : CVec Nat) 0 2 true (by decide) (by decide)).1
    (by decide)

/-- C10: whenever nmemb is positive, both factors are at least
2 ^ (bits / 2) and SIZE_MAX / nmemb < size, reallocarray refuses the
request with NULL and ENOMEM; such inputs are genuine overflows, the true
product exceeding SIZE_MAX. -/
theorem reallocarray_overflow_guard (bits nmemb size : Nat)
    (h0 : 0 < nmemb) (h1 : MUL_NO_OVERFLOW bits ≤ nmemb)
    (_h2 : MUL_NO_OVERFLOW bits ≤ size) (h3 : sizeMax bits / nmemb < size) :
    reallocarray bits nmemb size = none ∧ sizeMax bits < size * nmemb := by
  constructor
  · have hguard : (MUL_NO_OVERFLOW bits ≤ nmemb ∨ MUL_NO_OVERFLOW bits ≤ size)
        ∧ 0 < nmemb ∧ sizeMax bits / nmemb < size := ⟨Or.inl h1, h0, h3⟩
    simp only [reallocarray, if_pos hguard]
  · exact (Nat.div_lt_iff_lt_mul h0).mp h3

/-- C10 witness: on 64-bit size_t, nmemb = size = 2 ^ 32 is refused. -/
theorem reallocarray_overflow_guard_witness :
    reallocarray 64 4294967296 4294967296 = none :=
  (reallocarray_overflow_guard 64 4294967296 4294967296 (by decide) (by decide)
    (by decide) (by decide)).1

/-! ## Connection-establishment theorems -/

/-- Helper: the attempted candidates form an initial segment of the chain. -/
theorem connectAttempts_initial {α : Candidate → Bool} :
    ∀ l : List Candidate, ∃ rest, l = connectAttempts α l ++ rest := by
  intro l
  induction l with
  | nil => exact ⟨[], rfl⟩
  | cons c rest ih =>
    by_cases hc : α c
    · exact ⟨rest, by simp [connectAttempts, hc]⟩
    · obtain ⟨r, hr⟩ := ih
      exact ⟨r, by simp only [connectAttempts, hc, if_neg, Bool.false_eq_true,
        if_false, List.cons_append, List.cons.injEq, true_and]; exact hr⟩

/-- Helper: at most one attempt per candidate, in chain order. -/
theorem connectAttempts_length (α : Candidate → Bool) :
    ∀ l : List Candidate, (connectAttempts α l).length ≤ l.length := by
  intro l
  induction l with
  | nil => simp [connectAttempts]
  | cons c rest ih =>
    by_cases hc : α c
    · simp [connectAttempts, hc]
    · simp only [connectAttempts, hc, Bool.false_eq_true, if_false, List.length_cons]
      omega

/-- Helper: every attempt before the last one failed to connect. -/
theorem connectAttempts_dropLast_fail (α : Candidate → Bool) :
    ∀ l : List Candidate, ∀ c ∈ (connectAttempts α l).dropLast, α c = false := by
  intro l
  induction l with
  | nil => simp [connectAttempts]
  | cons c rest ih =>
    intro d hd
    by_cases hc : α c
    · simp [connectAttempts, hc] at hd
    · simp only [connectAttempts, hc, Bool.false_eq_true, if_false] at hd
      cases hA : connectAttempts α rest with
      | nil => simp [hA] at hd
      | cons a as =>
        rw [hA, List.dropLast_cons₂] at hd
        rcases List.mem_cons.mp hd with h | h
        · subst h; exact Bool.eq_false_iff.mpr hc
        · exact ih d (by rw [hA]; exact h)

/-- Helper: the loop succeeds exactly when the final attempt connects. -/
theorem connectLoop_iff_last (α : Candidate → Bool) :
    ∀ l : List Candidate, connectLoop α l = true ↔
      ∃ c, (connectAttempts α l).getLast? = some c ∧ α c = true := by
  intro l
  induction l with
  | nil => simp [connectLoop, connectAttempts]
  | cons c rest ih =>
    by_cases hc : α c
    · simp [connectLoop, connectAttempts, hc]
    · simp only [connectLoop, connectAttempts, hc, Bool.false_eq_true, if_false]
      cases hA : connectAttempts α rest with
      | nil =>
        rw [hA] at ih
        simp only [hA, List.getLast?_singleton]
        constructor
        · intro h; exact absurd h (by simpa using ih)
        · rintro ⟨d, hd, hαd⟩
          cases hd; exact absurd hαd (by simpa using hc)
      | cons a as =>
        rw [hA] at ih
        rw [show (c :: a :: as).getLast? = (a :: as).getLast? from List.getLast?_cons_cons]
        exact ih

/-- C1 counterexample: two candidates with different protocols, the first
refusing and the second accepting the connection.  CreateSocket opened the
one descriptor with the first candidate's family/socktype/protocol, and
both attempts run on that same descriptor, so the kernel socket used by the
second attempt does not match the second candidate's triple — refuting the
claim that each attempt opens a kernel socket matching its candidate. -/
theorem ConnectSocket_per_candidate_socket_cex :
    (CreateSocket [] 0 [⟨2, 1, 6, 10⟩, ⟨2, 1, 17, 20⟩] true 3).2
        = some ⟨3, 2, 1, 6, [⟨2, 1, 6, 10⟩, ⟨2, 1, 17, 20⟩]⟩
    ∧ ConnectSocket (fun c => c.addr == 20)
        ⟨3, 2, 1, 6, [⟨2, 1, 6, 10⟩, ⟨2, 1, 17, 20⟩]⟩ = true
    ∧ attemptSocketParams (fun c => c.addr == 20)
        ⟨3, 2, 1, 6, [⟨2, 1, 6, 10⟩, ⟨2, 1, 17, 20⟩]⟩
        ≠ (connectAttempts (fun c => c.addr == 20)
            [⟨2, 1, 6, 10⟩, ⟨2, 1, 17, 20⟩]).map
          (fun c => (c.family, c.socktype, c.protocol)) := by
  decide

/-- C1 (amended): ConnectSocket performs at most N connection attempts,
tries candidates strictly in resolver order one at a time, every attempt
before the last one failed, and it returns success exactly when its final
attempt (the first successful candidate) connects; but every attempt reuses
the single kernel socket CreateSocket opened with the first candidate's
family/socktype/protocol — no per-candidate socket is opened. -/
theorem ConnectSocket_order_first_success (conn : Candidate → Bool) (sock : SocketT) :
    (connectAttempts conn sock.adr).length ≤ sock.adr.length
    ∧ (∃ rest, sock.adr = connectAttempts conn sock.adr ++ rest)
    ∧ (∀ c ∈ (connectAttempts conn sock.adr).dropLast, conn c = false)
    ∧ (ConnectSocket conn sock = true ↔
        ∃ c, (connectAttempts conn sock.adr).getLast? = some c ∧ conn c = true)
    ∧ attemptSocketParams conn sock
        = (connectAttempts conn sock.adr).map
            (fun _ => (sock.fdFamily, sock.fdSocktype, sock.fdProtocol)) :=
  ⟨connectAttempts_length conn sock.adr, connectAttempts_initial sock.adr,
    connectAttempts_dropLast_fail conn sock.adr, connectLoop_iff_last conn sock.adr, rfl⟩

/-- C2: with one resolved candidate whose connect is refused, CreateSocket
opens descriptor 0 and ConnectSocket returns the all-candidates-failed
result 0 while the descriptor table still holds descriptor 0: the loop
closed nothing, so the descriptor count after the failed connection attempt
differs from the count before CreateSocket ran. -/
theorem connect_all_fail_fd_left_open :
    CreateSocket [] 0 [⟨2, 1, 6, 30⟩] true 0 = ([0], some ⟨0, 2, 1, 6, [⟨2, 1, 6, 30⟩]⟩)
    ∧ ConnectSocketFDs [0] (fun _ => false) ⟨0, 2, 1, 6, [⟨2, 1, 6, 30⟩]⟩ = ([0], false)
    ∧ ([0] : List Nat) ≠ [] := by
  decide

/-- C4 counterexample: resolver failures with different nonzero status
codes produce identical ResolveAddress results, so no function can read the
OS resolver's status code back off the result — the error does not carry
the status code, refuting that part of the claim. -/
theorem ResolveAddress_discards_status_cex :
    ¬ ∃ f : Bool × List Candidate → Nat,
        ∀ rv cands, rv ≠ 0 →
          f (ResolveAddress (fun _ _ _ => (rv, cands)) "example.com" "6667") = rv := by
  rintro ⟨f, hf⟩
  have h1 := hf 1 [] (by decide)
  have h2 := hf 2 [] (by decide)
  have hsame : ResolveAddress (fun _ _ _ => (1, ([] : List Candidate))) "example.com" "6667"
      = ResolveAddress (fun _ _ _ => (2, ([] : List Candidate))) "example.com" "6667" := rfl
  rw [hsame] at h1
  omega

/-- C4 (amended): ResolveAddress requests IPv4 stream-oriented candidates
(hints AF_INET / SOCK_STREAM), returns a bare failure — the resolver's
status code is discarded — exactly when the single resolver call reports a
nonzero status, and otherwise passes the resolver's candidate sequence
through unchanged, order preserved. -/
theorem ResolveAddress_error_iff (gai : Hints → String → String → Nat × List Candidate)
    (host port : String) :
    resolveHints = ⟨AF_INET, SOCK_STREAM⟩
    ∧ ((ResolveAddress gai host port).1 = false ↔ (gai resolveHints host port).1 ≠ 0)
    ∧ ((gai resolveHints host port).1 = 0 →
        (ResolveAddress gai host port).2 = (gai resolveHints host port).2) := by
  refine ⟨rfl, ?_, ?_⟩
  · by_cases h : (gai resolveHints host port).1 = 0 <;> simp [ResolveAddress, h]
  · intro h; simp [ResolveAddress, h]

/-- C5: the Read and Write wrappers return the syscall's -1 error in the
same unsigned byte-count type as a success, as the value 2 ^ 64 - 1, while
genuine transfers come back as their actual count: error and byte count
share one codomain, with no distinct error variant. -/
theorem read_write_error_sentinel :
    ReadSocket (-1) = sizeMax 64
    ∧ WriteSocket (-1) = sizeMax 64
    ∧ ReadSocket 6 = 6
    ∧ WriteSocket 6 = 6 := by
  decide

/-- C7: on a registry of two handles, the vec_foreach loop of
DestroySockets destroys only the first one — erasing it shifts the second
handle into the slot the loop has already passed — and vec_deinit then
clears the registry, so handle 11 is never destroyed (its descriptor stays
open) even though the registry ends empty; on an already-empty registry the
call is a safe no-op. -/
theorem DestroySockets_skips_second_handle :
    DestroySockets [10, 11] = ([], [10])
    ∧ (11 : Nat) ∉ (DestroySockets [10, 11]).2
    ∧ DestroySockets [] = ([], []) := by
  decide

/-! ## Registry theorems -/

/-- Helper: two snoc decompositions of one list agree. -/
theorem snoc_eq_snoc {α : Type} {xs ys : List α} {a b : α}
    (h : xs ++ [a] = ys ++ [b]) : xs = ys ∧ a = b := by
  have hlen : ([a] : List α).length = ([b] : List α).length := by simp
  have := List.append_inj' h (by simp)
  exact ⟨this.1, by simpa using this.2⟩

/-- Helper: running one more operation is one more step. -/
theorem regRun_snoc (ops : List RegOp) (op : RegOp) :
    regRun (ops ++ [op]) = regStep (regRun ops) op := by
  simp [regRun, List.foldl_append]

/-- Helper: the successful-create count after one more operation. -/
theorem succCreates_snoc (ops : List RegOp) (op : RegOp) :
    succCreates (ops ++ [op]) = succCreates ops + (if isSuccCreate op then 1 else 0) := by
  cases hop : isSuccCreate op <;>
    simp [succCreates, List.filter_append, hop]

/-- Helper: the freshness counter counts the successful creates. -/
theorem regRun_nextId (ops : List RegOp) : (regRun ops).nextId = succCreates ops := by
  induction ops using List.reverseRecOn with
  | nil => rfl
  | append_singleton xs x ih =>
    rw [regRun_snoc, succCreates_snoc]
    cases x with
    | create r s p => cases r <;> cases s <;> cases p <;> simp [regStep, isSuccCreate, ih]
    | destroy d => simp [regStep, isSuccCreate, ih]

/-- Helper: the step of a successful create whose push appended. -/
theorem regStep_create_ttt (st : RegState) :
    regStep st (RegOp.create true true true)
      = ⟨st.sockets ++ [st.nextId], st.nextId + 1⟩ := rfl

/-- Helper: the step of a successful create whose push allocation failed:
the handle is live (it consumes a fresh address) but nothing is appended. -/
theorem regStep_create_ttf (st : RegState) :
    regStep st (RegOp.create true true false) = ⟨st.sockets, st.nextId + 1⟩ := rfl

/-- Helper: the step of a failed create leaves the registry untouched. -/
theorem regStep_create_other (st : RegState) (r s p : Bool)
    (hrs : ¬(r = true ∧ s = true)) : regStep st (RegOp.create r s p) = st := by
  cases r <;> cases s
  case true.true => exact absurd ⟨rfl, rfl⟩ hrs
  all_goals simp [regStep]

/-- Helper: any create other than a fully successful pushed one leaves the
sockets vector as it was. -/
theorem regStep_sockets_not_ttt (st : RegState) (r s p : Bool)
    (hrsp : ¬(r = true ∧ s = true ∧ p = true)) :
    (regStep st (RegOp.create r s p)).sockets = st.sockets := by
  cases r <;> cases s <;> cases p
  case true.true.true => exact absurd ⟨rfl, rfl, rfl⟩ hrsp
  all_goals simp [regStep]

/-- Helper: every registered handle is older than the freshness counter. -/
theorem regRun_mem_lt (ops : List RegOp) :
    ∀ h ∈ (regRun ops).sockets, h < succCreates ops := by
  induction ops using List.reverseRecOn with
  | nil => intro h hmem; simp [regRun, regInit] at hmem
  | append_singleton xs x ih =>
    intro h hmem
    rw [regRun_snoc] at hmem
    rw [succCreates_snoc]
    have hbound : succCreates xs ≤ succCreates xs + if isSuccCreate x then 1 else 0 :=
      Nat.le_add_right _ _
    cases x with
    | create r s p =>
      by_cases hrs : r = true ∧ s = true
      · obtain ⟨rfl, rfl⟩ := hrs
        cases p
        · rw [regStep_create_ttf] at hmem
          have := ih h hmem; omega
        · rw [regStep_create_ttt] at hmem
          rcases List.mem_append.mp hmem with hm | hm
          · have := ih h hm; omega
          · have heq : h = (regRun xs).nextId := by simpa using hm
            rw [heq, regRun_nextId]
            have hone : (if isSuccCreate (RegOp.create true true true) = true
                then 1 else 0) = 1 := rfl
            omega
      · rw [regStep_create_other _ _ _ _ hrs] at hmem
        have := ih h hmem; omega
    | destroy d =>
      simp only [regStep] at hmem
      have := ih h (List.mem_of_mem_erase hmem)
      omega

/-- Helper: appending a fully successful pushed create makes registered
exactly the previously registered handles plus the fresh one. -/
theorem rnd_snoc_create_ttt (ops : List RegOp) (h : Nat) :
    registeredNotDestroyed (ops ++ [RegOp.create true true true]) h ↔
      registeredNotDestroyed ops h ∨ h = succCreates ops := by
  constructor
  · rintro ⟨pre, post, heq, hcount, hnd⟩
    rcases post.eq_nil_or_concat' with hpost | ⟨post₀, lastE, hpost⟩
    · subst hpost
      obtain ⟨hxs, -⟩ := snoc_eq_snoc
        (show ops ++ [RegOp.create true true true] = pre ++ [RegOp.create true true true] by
          simpa using heq)
      right
      rw [hxs]; exact hcount.symm
    · subst hpost
      obtain ⟨hxs, -⟩ := snoc_eq_snoc
        (show ops ++ [RegOp.create true true true]
            = (pre ++ RegOp.create true true true :: post₀) ++ [lastE] by
          simpa using heq)
      left
      exact ⟨pre, post₀, hxs, hcount, fun hm => hnd (List.mem_append.mpr (Or.inl hm))⟩
  · rintro (⟨pre, post, heq, hcount, hnd⟩ | rfl)
    · refine ⟨pre, post ++ [RegOp.create true true true], by rw [heq]; simp, hcount, ?_⟩
      intro hm
      rcases List.mem_append.mp hm with hm | hm
      · exact hnd hm
      · simp at hm
    · exact ⟨ops, [], by simp, rfl, by simp⟩

/-- Helper: appending anything that is neither a fully successful pushed
create nor a destroy changes nothing about registered liveness. -/
theorem rnd_snoc_other (ops : List RegOp) (h : Nat) (op : RegOp)
    (hop : op ≠ RegOp.create true true true) (hnotd : ∀ d, op ≠ RegOp.destroy d) :
    registeredNotDestroyed (ops ++ [op]) h ↔ registeredNotDestroyed ops h := by
  constructor
  · rintro ⟨pre, post, heq, hcount, hnd⟩
    rcases post.eq_nil_or_concat' with hpost | ⟨post₀, lastE, hpost⟩
    · subst hpost
      obtain ⟨-, hopeq⟩ := snoc_eq_snoc
        (show ops ++ [op] = pre ++ [RegOp.create true true true] by simpa using heq)
      exact absurd hopeq hop
    · subst hpost
      obtain ⟨hxs, -⟩ := snoc_eq_snoc
        (show ops ++ [op] = (pre ++ RegOp.create true true true :: post₀) ++ [lastE] by
          simpa using heq)
      exact ⟨pre, post₀, hxs, hcount, fun hm => hnd (List.mem_append.mpr (Or.inl hm))⟩
  · rintro ⟨pre, post, heq, hcount, hnd⟩
    refine ⟨pre, post ++ [op], by rw [heq]; simp, hcount, ?_⟩
    intro hm
    rcases List.mem_append.mp hm with hm | hm
    · exact hnd hm
    · exact hnotd h (List.mem_singleton.mp hm).symm

/-- Helper: appending a destroy keeps exactly the other registered handles. -/
theorem rnd_snoc_destroy (ops : List RegOp) (h d : Nat) :
    registeredNotDestroyed (ops ++ [RegOp.destroy d]) h ↔
      registeredNotDestroyed ops h ∧ h ≠ d := by
  constructor
  · rintro ⟨pre, post, heq, hcount, hnd⟩
    rcases post.eq_nil_or_concat' with hpost | ⟨post₀, lastE, hpost⟩
    · subst hpost
      obtain ⟨-, hopeq⟩ := snoc_eq_snoc
        (show ops ++ [RegOp.destroy d] = pre ++ [RegOp.create true true true] by
          simpa using heq)
      exact absurd hopeq (by simp)
    · subst hpost
      obtain ⟨hxs, hopeq⟩ := snoc_eq_snoc
        (show ops ++ [RegOp.destroy d]
            = (pre ++ RegOp.create true true true :: post₀) ++ [lastE] by
          simpa using heq)
      refine ⟨⟨pre, post₀, hxs, hcount, fun hm => hnd (List.mem_append.mpr (Or.inl hm))⟩, ?_⟩
      intro hhd
      subst hhd
      exact hnd (List.mem_append.mpr (Or.inr (by rw [← hopeq]; simp)))
  · rintro ⟨⟨pre, post, heq, hcount, hnd⟩, hne⟩
    refine ⟨pre, post ++ [RegOp.destroy d], by rw [heq]; simp, hcount, ?_⟩
    intro hm
    rcases List.mem_append.mp hm with hm | hm
    · exact hnd hm
    · have := List.mem_singleton.mp hm
      exact hne (by injection this)

/-- C6 counterexample: one CreateSocket call whose resolver and socket()
steps succeed but whose registry push hits an allocation failure.
CreateSocket never checks the push outcome and still returns the live
handle 0, yet the registry stays empty — so the registry's membership is
not the set of successfully created, not yet destroyed handles. -/
theorem registry_push_failure_cex :
    (regRun [RegOp.create true true false]).sockets = []
    ∧ createdNotDestroyed [RegOp.create true true false] 0
    ∧ ¬ ((0 : Nat) ∈ (regRun [RegOp.create true true false]).sockets ↔
          createdNotDestroyed [RegOp.create true true false] 0) := by
  have h1 : (regRun [RegOp.create true true false]).sockets = [] := rfl
  have h2 : createdNotDestroyed [RegOp.create true true false] 0 :=
    ⟨[], false, [], rfl, rfl, by simp⟩
  refine ⟨h1, h2, fun hiff => ?_⟩
  have h3 := hiff.mpr h2
  rw [h1] at h3
  simp at h3

/-- C6 (amended): after any sequence of CreateSocket and DestroySocket
operations the registry holds no duplicate entries, and a handle is
registered exactly when some successful CreateSocket whose registry push
also appended (no allocation failure inside the push) produced it and no
later DestroySocket destroyed it: such creates append their fresh handle,
destroys erase theirs, failed creations add nothing — but a successful
CreateSocket whose push allocation fails returns a live handle that is
never registered. -/
theorem registry_registered_membership (ops : List RegOp) :
    (regRun ops).sockets.Nodup
    ∧ ∀ h, h ∈ (regRun ops).sockets ↔ registeredNotDestroyed ops h := by
  induction ops using List.reverseRecOn with
  | nil =>
    refine ⟨by simp [regRun, regInit], fun h => ?_⟩
    simp only [regRun, regInit]
    constructor
    · intro hm; simp [List.foldl] at hm
    · rintro ⟨pre, post, heq, -, -⟩
      exact absurd heq.symm (by simp)
  | append_singleton xs x ih =>
    obtain ⟨ihnd, ihmem⟩ := ih
    rw [regRun_snoc]
    cases x with
    | create r s p =>
      by_cases hrsp : r = true ∧ s = true ∧ p = true
      · obtain ⟨rfl, rfl, rfl⟩ := hrsp
        rw [regStep_create_ttt]
        constructor
        · simp only [List.nodup_append, List.nodup_cons, List.nodup_nil]
          refine ⟨ihnd, by simp, ?_⟩
          intro a ha hb
          have h1 := regRun_mem_lt xs a ha
          have h2 : a = (regRun xs).nextId := by simpa using hb
          rw [h2, regRun_nextId] at h1
          omega
        · intro h
          rw [rnd_snoc_create_ttt]
          simp only [List.mem_append, List.mem_singleton]
          rw [ihmem h, regRun_nextId]
      · have hop : RegOp.create r s p ≠ RegOp.create true true true := by
          intro hc
          injection hc with h1 h2 h3
          exact hrsp ⟨h1, h2, h3⟩
        have hsk : (regStep (regRun xs) (RegOp.create r s p)).sockets
            = (regRun xs).sockets := regStep_sockets_not_ttt _ _ _ _ hrsp
        refine ⟨by rw [hsk]; exact ihnd, fun h => ?_⟩
        rw [hsk, rnd_snoc_other xs h _ hop (fun d => by simp)]
        exact ihmem h
    | destroy d =>
      constructor
      · exact ihnd.erase d
      · intro h
        rw [rnd_snoc_destroy]
        simp only [regStep]
        rw [ihnd.mem_erase_iff, ihmem h]
        tauto

end PsychicNinja
